import Mathlib

/-!
Verification development for the kinto-http.js client library.

Part 1 embeds the point-in-time snapshot reconstruction of
`src/collection.js` (`listRecords`, `getSnapshot`, `isHistoryComplete`,
`listChangesBackTo`).

Part 2 models the resilient HTTP request engine.  Its source file
(src/http.ts of the repository) is not among the sources provided — only
its test suite is — so those definitions are modelled from the
specification document (section 4.1), corroborated by that test suite;
each such definition carries a doc comment starting with
`Modelled from the spec:`.
-/

namespace KintoHttp

/-- The data snapshot carried by a history entry (`target.data` in the
source).  Besides the record id and its `last_modified` revision we keep an
abstract `payload` standing for the remaining record fields. -/
structure RecordData where
  id : String
  last_modified : Int
  payload : Nat
deriving DecidableEq

/-- History actions, as produced by the kinto history plugin. -/
inductive Action where
  | create
  | update
  | delete
deriving DecidableEq

/-- One change event as consumed by the replay loop of `getSnapshot`:
the `action` together with `target.data`. -/
structure ChangeEvent where
  action : Action
  record : RecordData
deriving DecidableEq

/-- One entry of the bucket history log, with the filterable fields used by
`isHistoryComplete` and `listChangesBackTo` (`action`, `resource_name`,
`collection_id`) and the record data snapshot `target.data`. -/
structure HistoryEntry where
  action : Action
  resource_name : String
  collection_id : String
  target : RecordData
deriving DecidableEq

/-- The replay loop of `getSnapshot` (src/collection.js:403-413), with the
`seenIds` set and the `snapshot` accumulator as explicit arguments:
a `delete` event adds the id to `seenIds` and filters every entry with that
id out of the accumulator; a `create`/`update` event appends the record when
its id has not been seen and is ignored otherwise. -/
def replayGo (seen : List String) (snap : List RecordData) :
    List ChangeEvent → List RecordData
  | [] => snap
  | ev :: rest =>
    match ev.action with
    | Action.delete =>
        replayGo (ev.record.id :: seen)
          (snap.filter (fun r => r.id != ev.record.id)) rest
    | _ =>
        if seen.contains ev.record.id then
          replayGo seen snap rest
        else
          replayGo (ev.record.id :: seen) (snap ++ [ev.record]) rest

/-- The replay of `getSnapshot` started from the empty seen-set and the
empty accumulator, as in the source. -/
def replay (changes : List ChangeEvent) : List RecordData :=
  replayGo [] [] changes

/-- Stable insertion, descending by an integer key: an element is placed
before the first element with a strictly smaller key, so ties keep their
original relative order. -/
def insertDescBy (key : α → Int) (x : α) : List α → List α
  | [] => [x]
  | y :: ys =>
    if key y < key x then x :: y :: ys
    else y :: insertDescBy key x ys

/-- Stable sort, descending by an integer key; models the stable sorts of
the snapshot subsystem (ES2019 `Array.prototype.sort` is stable, and a
stable sort is uniquely determined by its comparator, so insertion sort is
a faithful model). -/
def sortDescBy (key : α → Int) (l : List α) : List α :=
  l.foldl (fun acc x => insertDescBy key x acc) []

/-- The `snapshot.sort((a, b) => b.last_modified - a.last_modified)` call
of `getSnapshot` (src/collection.js:416). -/
def sortByLastModifiedDesc (l : List RecordData) : List RecordData :=
  sortDescBy (fun r => r.last_modified) l

/-- The result object assembled by `getSnapshot`
(src/collection.js:414-422).  The `next` closure, which always throws, is
embedded as the `Except` value it produces when invoked. -/
structure SnapshotResult where
  last_modified : String
  data : List RecordData
  next : Except String Unit
  hasNextPage : Bool
  totalRecords : Nat

/-- The argument of `getSnapshot`, as a JavaScript value: an integer
number, a non-integer number, or `undefined` (the `at` key of the options
object may be present with value `undefined`).  `Number.isInteger` holds
exactly for `intVal`. -/
inductive AtArg where
  | intVal (n : Int)
  | nonIntNum
  | undef
deriving DecidableEq

/-- Model of `Number.isInteger(at)` on the modelled argument. -/
def numberIsInteger : AtArg → Bool
  | AtArg.intVal _ => true
  | _ => false

/-- The guard of `getSnapshot` (src/collection.js:397):
`!Number.isInteger(at) || at <= 0`. -/
def invalidAt : AtArg → Bool
  | AtArg.intVal n => decide (n ≤ 0)
  | _ => true

/-- Message of the argument error thrown by `getSnapshot`. -/
def invalidSnapshotArgMessage : String :=
  "Invalid argument, expected a positive integer."

/-- Message of the incomplete-history error thrown by
`listChangesBackTo`. -/
def incompleteHistoryMessage : String :=
  "Computing a snapshot is only possible when the full history for a " ++
    "collection is available. Here, the history plugin seems to have " ++
    "been enabled after the creation of the collection."

/-- An apostrophe, spelled via its code point. -/
def apos : String := String.singleton (Char.ofNat 39)

/-- Message of the error thrown by the `next` closure of a snapshot
result. -/
def snapshotsPaginationMessage : String :=
  "Snapshots don" ++ apos ++ "t support pagination"

/-- One network call issued by the snapshot subsystem: the completeness
check of `isHistoryComplete`, or the record-change history fetch of
`listChangesBackTo`. -/
inductive Query where
  | completeness (collectionId : String)
  | recordChanges (collectionId : String) (upTo : Int)
deriving DecidableEq

/-- Embeds `isHistoryComplete` (src/collection.js:353-365): the history log,
filtered for a `create` action on the `collection` resource with the
id of the collection, must be non-empty. -/
def isHistoryComplete (log : List HistoryEntry) (c : String) : Bool :=
  !(log.filter (fun e =>
      e.action == Action.create && e.resource_name == "collection" &&
        e.collection_id == c)).isEmpty

/-- The record-change history fetch of `listChangesBackTo`
(src/collection.js:380-389).  The server (an external collaborator) is
modelled as filtering the log for `resource_name == "record"`, the
collection id and `target.data.last_modified <= at`, and returning the
matches sorted by `-target.data.last_modified` (descending, stable). -/
def recordChangesQuery (log : List HistoryEntry) (c : String) (upTo : Int) :
    List ChangeEvent :=
  let matching := log.filter (fun e =>
    e.resource_name == "record" && e.collection_id == c &&
      decide (e.target.last_modified ≤ upTo))
  sortDescBy (fun ev => ev.record.last_modified)
    (matching.map (fun e => ChangeEvent.mk e.action e.target))

/-- Embeds `getSnapshot` (src/collection.js:395-423), including the
`listChangesBackTo` and `isHistoryComplete` steps it performs.  Besides the
result (or thrown error message) it returns the trace of history queries
issued, in order. -/
def getSnapshot (log : List HistoryEntry) (c : String) (a : AtArg) :
    Except String SnapshotResult × List Query :=
  match a with
  | AtArg.intVal n =>
    if n ≤ 0 then (Except.error invalidSnapshotArgMessage, [])
    else if !(isHistoryComplete log c) then
      (Except.error incompleteHistoryMessage, [Query.completeness c])
    else
      let changes := recordChangesQuery log c n
      let snapshot := replayGo [] [] changes
      (Except.ok
        { last_modified := toString n
          data := sortByLastModifiedDesc snapshot
          next := Except.error snapshotsPaginationMessage
          hasNextPage := false
          totalRecords := snapshot.length },
       [Query.completeness c, Query.recordChanges c n])
  | _ => (Except.error invalidSnapshotArgMessage, [])

/-- Does the change sequence contain a `delete` event for `id`? -/
def hasDeleteFor (changes : List ChangeEvent) (id : String) : Bool :=
  changes.any (fun e => e.action == Action.delete && e.record.id == id)

/-- The first event for `id` in the change sequence (the newest one, since
`getSnapshot` receives the changes newest-to-oldest). -/
def firstEventFor (changes : List ChangeEvent) (id : String) :
    Option ChangeEvent :=
  changes.find? (fun e => e.record.id == id)

/-- The outcome of `listRecords`: either the call dispatched to
`getSnapshot`, or it delegated to `paginatedList` on the client. -/
inductive ListRecordsOutcome where
  | snapshotOutcome (out : Except String SnapshotResult × List Query)
  | paginated

/-- The options object of `listRecords`, keeping only the `at` key: `none`
when the key is absent, `some v` when the key is an own property with the
JavaScript value `v` (which may be `undefined`).  `hasOwnProperty("at")` is
`Option.isSome`. -/
structure ListRecordsOptions where
  atProp : Option AtArg

/-- Embeds `listRecords` (src/collection.js:340-348): when the options object has
an own property named `at`, the call returns `getSnapshot(options.at)`;
otherwise it delegates to `paginatedList`. -/
def listRecords (log : List HistoryEntry) (c : String)
    (opts : ListRecordsOptions) : ListRecordsOutcome :=
  match opts.atProp with
  | some v => ListRecordsOutcome.snapshotOutcome (getSnapshot log c v)
  | none => ListRecordsOutcome.paginated

/-- Follows the wording of claim C1, not the source: the event for `id`
with the greatest revision (`last_modified`) among the given events.  Used
to compare the reconstructed state against the state the claim
predicts. -/
def specLatestEventFor (changes : List ChangeEvent) (id : String) :
    Option ChangeEvent :=
  (changes.filter (fun e => e.record.id == id)).foldl
    (fun acc e =>
      match acc with
      | none => some e
      | some m =>
        if m.record.last_modified < e.record.last_modified then some e
        else some m)
    none

/-- Record data of the re-creation of record "A" at revision 8. -/
def recA8 : RecordData := { id := "A", last_modified := 8, payload := 2 }

/-- Tombstone data of the deletion of record "A" at revision 5. -/
def recA5 : RecordData := { id := "A", last_modified := 5, payload := 0 }

/-- History log of a delete-then-recreate run: the collection creation
event, an older delete of "A" at revision 5 and a newer create of "A" at
revision 8. -/
def exampleLog : List HistoryEntry :=
  [ { action := Action.create, resource_name := "collection",
      collection_id := "posts",
      target := { id := "posts", last_modified := 1, payload := 0 } },
    { action := Action.create, resource_name := "record",
      collection_id := "posts", target := recA8 },
    { action := Action.delete, resource_name := "record",
      collection_id := "posts", target := recA5 } ]

/-- The concrete snapshot result `getSnapshot` produces on `exampleLog` at
target revision 10. -/
def exampleSnapshotResult : SnapshotResult :=
  { last_modified := "10"
    data := []
    next := Except.error snapshotsPaginationMessage
    hasNextPage := false
    totalRecords := 0 }

/-- Modelled from the spec: one entry of the `details` array of a parsed
error body (src/http.ts and src/errors.ts are missing from the provided
sources); only the `description` field enters the error message. -/
structure DetailEntry where
  description : String
deriving DecidableEq

/-- Modelled from the spec: a response body parsed as structured data
(missing src/http.ts).  The fields `error` and `details` drive the error
message; the remaining fields are irrelevant here. -/
structure BodyJson where
  error : Option String
  details : List DetailEntry
deriving DecidableEq

/-- Modelled from the spec: a classified transport response (missing
src/http.ts): status code, status text, parsed body (`none` when the body
is absent or unparseable), and the lifecycle headers `Backoff` and
`Retry-After` in integer seconds (`none` when the header is absent). -/
structure Response where
  status : Nat
  statusText : String
  body : Option BodyJson
  backoff : Option Int
  retryAfter : Option Int
deriving DecidableEq

/-- Modelled from the spec: the error kinds of the engine that the claims
below exercise (missing src/errors.ts); a ServerResponse error carries the
status, the human-readable message and the attached parsed body. -/
inductive ReqError where
  | serverResponse (status : Nat) (message : String) (data : Option BodyJson)
deriving DecidableEq

/-- Modelled from the spec: the ServerResponse error message (missing
src/errors.ts): with a parsed body containing `error` and a first detail,
the message is built from the status, the `error` field and the first
description of the first detail; otherwise it falls back to the status and the status
text. -/
def serverResponseMessage (status : Nat) (statusText : String)
    (body : Option BodyJson) : String :=
  match body with
  | some j =>
    match j.error, j.details with
    | some e, d :: _ =>
        "HTTP " ++ toString status ++ " " ++ e ++
          ": Invalid request parameter (" ++ d.description ++ ")"
    | _, _ => "HTTP " ++ toString status ++ " " ++ statusText
  | none => "HTTP " ++ toString status ++ " " ++ statusText

/-- Modelled from the spec: the ServerResponse error built for a failing
response, with the parsed body attached for programmatic inspection
(missing src/http.ts). -/
def attemptError (r : Response) : ReqError :=
  ReqError.serverResponse r.status
    (serverResponseMessage r.status r.statusText r.body) r.body

/-- Modelled from the spec: status classification (missing src/http.ts):
status at least 400 fails with the ServerResponse error, anything below
succeeds with the classified response. -/
def classify (r : Response) : Except ReqError Response :=
  if 400 ≤ r.status then Except.error (attemptError r) else Except.ok r

/-- Modelled from the spec: a lifecycle signal emitted through the event
sink (missing src/http.ts). -/
structure Signal where
  name : String
  payload : Int
deriving DecidableEq

/-- Modelled from the spec: the header-driven signals of one attempt
(missing src/http.ts), computed regardless of the status: a `Backoff`
header of s seconds emits `backoff` with current time plus s times 1000;
an absent header emits `backoff` with payload 0; a `Retry-After` header
emits `retry-after` with the same transform. -/
def headerSignals (now : Int) (r : Response) : List Signal :=
  (match r.backoff with
   | some s => [{ name := "backoff", payload := now + s * 1000 }]
   | none => [{ name := "backoff", payload := 0 }]) ++
  (match r.retryAfter with
   | some s => [{ name := "retry-after", payload := now + s * 1000 }]
   | none => [])

/-- Modelled from the spec: the processing of one attempt (missing
src/http.ts): the signals are emitted unconditionally, on the success and
the failure path alike, and the response is classified. -/
def processAttempt (now : Int) (r : Response) :
    List Signal × Except ReqError Response :=
  (headerSignals now r, classify r)

/-- Modelled from the spec: the retry loop (missing src/http.ts).  The
transport maps the 0-based attempt index to its response; the loop
classifies the current attempt, retries only when the failing status is
503 and budget remains (decrementing the budget), and otherwise surfaces
the outcome.  It returns the outcome together with the total number of
attempts performed. -/
def retryLoop (transport : Nat → Response) :
    Nat → Nat → Except ReqError Response × Nat
  | attempt, budget =>
    match classify (transport attempt) with
    | Except.ok v => (Except.ok v, attempt + 1)
    | Except.error e =>
      match budget with
      | 0 => (Except.error e, attempt + 1)
      | b + 1 =>
        if (transport attempt).status == 503 then
          retryLoop transport (attempt + 1) b
        else (Except.error e, attempt + 1)

/-- Modelled from the spec: one logical request with a retry budget
(missing src/http.ts): the retry loop started at the first attempt with
the configured budget. -/
def request (transport : Nat → Response) (retryBudget : Nat) :
    Except ReqError Response × Nat :=
  retryLoop transport 0 retryBudget

/-- Modelled from the spec: the fixed default request headers (missing
src/http.ts). -/
def defaultRequestHeaders : List (String × String) :=
  [("Accept", "application/json"), ("Content-Type", "application/json")]

/-- Modelled from the spec: the shape of a request body as far as header
construction cares (missing src/http.ts): absent, a plain payload, or a
multipart payload. -/
inductive RequestBody where
  | absent
  | jsonBody (payload : String)
  | multipart
deriving DecidableEq

/-- Is the body a multipart payload? -/
def isMultipart : RequestBody → Bool
  | RequestBody.multipart => true
  | _ => false

/-- Modelled from the spec: header construction (missing src/http.ts):
start from the fixed defaults, overlay the caller headers with the caller
winning on case-insensitive key collision, and remove the Content-Type
entry entirely when the body is multipart. -/
def buildRequestHeaders (caller : List (String × String))
    (body : RequestBody) : List (String × String) :=
  let merged :=
    defaultRequestHeaders.filter (fun d =>
      !(caller.any (fun h => h.1.toLower == d.1.toLower))) ++ caller
  if isMultipart body then
    merged.filter (fun h => h.1.toLower != "content-type")
  else merged

/-- Case-insensitive lookup in a header mapping: the first entry whose key
lower-cases to the lower case of the probe key. -/
def headerLookup (hs : List (String × String)) (k : String) :
    Option String :=
  (hs.find? (fun h => h.1.toLower == k.toLower)).map (fun h => h.2)

/-- A transport producing two 503 responses and then a 200, as in the
retry scenario of the spec. -/
def exampleTransport (i : Nat) : Response :=
  if i < 2 then
    { status := 503, statusText := "Service Unavailable", body := none,
      backoff := none, retryAfter := some 1 }
  else
    { status := 200, statusText := "OK", body := none, backoff := none,
      retryAfter := none }

/-- A 410 response that must never be retried. -/
def exampleResponse410 : Response :=
  { status := 410, statusText := "Gone", body := none, backoff := none,
    retryAfter := none }

/-- The structured error body of the 400 scenario in the test suite. -/
def exampleErrorBody : BodyJson :=
  { error := some "Invalid parameters"
    details := [{ description := "data is missing" }] }

/-- The 400 response of the business-error scenario in the test suite. -/
def exampleResponse400 : Response :=
  { status := 400, statusText := "Bad Request", body := some exampleErrorBody,
    backoff := none, retryAfter := none }

theorem insertDescBy_perm (key : α → Int) (x : α) :
    ∀ l : List α, (insertDescBy key x l).Perm (x :: l)
  | [] => by simp [insertDescBy]
  | y :: ys => by
    unfold insertDescBy
    by_cases h : key y < key x
    · simp [h]
    · simp only [if_neg h]
      exact ((insertDescBy_perm key x ys).cons y).trans (List.Perm.swap x y ys)

theorem sortDescBy_go_perm (key : α → Int) :
    ∀ (l acc : List α),
      (l.foldl (fun acc x => insertDescBy key x acc) acc).Perm (acc ++ l)
  | [], acc => by simp
  | x :: xs, acc => by
    simp only [List.foldl_cons]
    exact ((sortDescBy_go_perm key xs (insertDescBy key x acc)).trans
      (List.Perm.append_right xs (insertDescBy_perm key x acc))).trans
      List.perm_middle.symm

theorem sortDescBy_perm (key : α → Int) (l : List α) :
    (sortDescBy key l).Perm l := by
  simpa using sortDescBy_go_perm key l []

theorem pairwise_insertDescBy (key : α → Int) (x : α) :
    ∀ l : List α, List.Pairwise (fun a b => key b ≤ key a) l →
      List.Pairwise (fun a b => key b ≤ key a) (insertDescBy key x l)
  | [], _ => by simp [insertDescBy]
  | y :: ys, h => by
    unfold insertDescBy
    rcases List.pairwise_cons.mp h with ⟨hy, hys⟩
    by_cases hlt : key y < key x
    · simp only [if_pos hlt]
      refine List.pairwise_cons.mpr ⟨?_, h⟩
      intro b hb
      rcases List.mem_cons.mp hb with hb | hb
      · exact hb ▸ le_of_lt hlt
      · exact le_trans (hy b hb) (le_of_lt hlt)
    · simp only [if_neg hlt]
      refine List.pairwise_cons.mpr ⟨?_, pairwise_insertDescBy key x ys hys⟩
      intro b hb
      rcases List.mem_cons.mp ((insertDescBy_perm key x ys).mem_iff.mp hb)
        with hb | hb
      · exact hb ▸ le_of_not_lt hlt
      · exact hy b hb

theorem sortDescBy_go_pairwise (key : α → Int) :
    ∀ (l acc : List α),
      List.Pairwise (fun a b => key b ≤ key a) acc →
        List.Pairwise (fun a b => key b ≤ key a)
          (l.foldl (fun acc x => insertDescBy key x acc) acc)
  | [], _, h => h
  | x :: xs, acc, h => by
    simp only [List.foldl_cons]
    exact sortDescBy_go_pairwise key xs _ (pairwise_insertDescBy key x acc h)

theorem sortDescBy_pairwise (key : α → Int) (l : List α) :
    List.Pairwise (fun a b => key b ≤ key a) (sortDescBy key l) :=
  sortDescBy_go_pairwise key l [] (by simp)

/-- Complete characterisation of the replay loop: for each id, the replayed
accumulator keeps its previous entries with that id and gains at most the
first matching event, unless some `delete` event for that id occurs in the
remaining changes, in which case the id ends up absent. -/
theorem replayGo_filter (id : String) :
    ∀ (changes : List ChangeEvent) (seen : List String)
      (snap : List RecordData),
      (replayGo seen snap changes).filter (fun r => r.id == id) =
        if hasDeleteFor changes id then []
        else
          snap.filter (fun r => r.id == id) ++
            (if seen.contains id then []
             else
               match firstEventFor changes id with
               | some e => [e.record]
               | none => []) := by
  intro changes
  induction changes with
  | nil =>
    intro seen snap
    simp [replayGo, hasDeleteFor, firstEventFor]
  | cons ev rest ih =>
    intro seen snap
    obtain ⟨act, rd⟩ := ev
    cases act with
    | delete =>
      have hstep : replayGo seen snap (⟨Action.delete, rd⟩ :: rest) =
          replayGo (rd.id :: seen)
            (snap.filter (fun r => r.id != rd.id)) rest := rfl
      by_cases hid : rd.id = id
      · subst hid
        have hd : hasDeleteFor (⟨Action.delete, rd⟩ :: rest) rd.id = true := by
          simp [hasDeleteFor]
        have hc : (rd.id :: seen).contains rd.id = true := by
          simp [List.contains_cons]
        have hff : (snap.filter (fun r => r.id != rd.id)).filter
            (fun r => r.id == rd.id) = [] := by
          rw [List.filter_filter]
          refine List.filter_eq_nil_iff.mpr ?_
          intro r _
          by_cases hr : r.id = rd.id <;> simp [hr, bne]
        rw [hstep, ih, hd, if_pos rfl, hff, hc, if_pos rfl]
        by_cases hdel : hasDeleteFor rest rd.id = true <;> simp [hdel]
      · have hne : (rd.id == id) = false := beq_eq_false_iff_ne.mpr hid
        have hne2 : (id == rd.id) = false :=
          beq_eq_false_iff_ne.mpr (fun h => hid h.symm)
        have hd : hasDeleteFor (⟨Action.delete, rd⟩ :: rest) id =
            hasDeleteFor rest id := by
          simp [hasDeleteFor, hne]
        have hf : firstEventFor (⟨Action.delete, rd⟩ :: rest) id =
            firstEventFor rest id := by
          unfold firstEventFor
          exact List.find?_cons_of_neg rest (by simp [hne])
        have hc : (rd.id :: seen).contains id = seen.contains id := by
          rw [List.contains_cons, hne2, Bool.false_or]
        have hff : (snap.filter (fun r => r.id != rd.id)).filter
            (fun r => r.id == id) = snap.filter (fun r => r.id == id) := by
          rw [List.filter_filter]
          refine List.filter_congr ?_
          intro r _
          by_cases hr : r.id = id
          · simp [hr, bne, hne2]
          · simp [beq_eq_false_iff_ne.mpr hr]
        rw [hstep, ih, hd, hf, hc, hff]
    | create =>
      have hstep : replayGo seen snap (⟨Action.create, rd⟩ :: rest) =
          if seen.contains rd.id then replayGo seen snap rest
          else replayGo (rd.id :: seen) (snap ++ [rd]) rest := rfl
      have hd : hasDeleteFor (⟨Action.create, rd⟩ :: rest) id =
          hasDeleteFor rest id := by
        simp [hasDeleteFor]
      by_cases hseen : seen.contains rd.id = true
      · rw [hstep, if_pos hseen, ih, hd]
        by_cases hid : rd.id = id
        · subst hid
          rw [hseen]
          simp
        · have hne : (rd.id == id) = false := beq_eq_false_iff_ne.mpr hid
          have hf : firstEventFor (⟨Action.create, rd⟩ :: rest) id =
              firstEventFor rest id := by
            unfold firstEventFor
            exact List.find?_cons_of_neg rest (by simp [hne])
          rw [hf]
      · have hseen0 : seen.contains rd.id = false :=
          Bool.not_eq_true _ ▸ Bool.of_not_eq_true hseen
        rw [hstep, if_neg hseen, ih, hd, List.filter_append]
        by_cases hid : rd.id = id
        · subst hid
          have hf : firstEventFor (⟨Action.create, rd⟩ :: rest) rd.id =
              some ⟨Action.create, rd⟩ := by
            unfold firstEventFor
            exact List.find?_cons_of_pos rest (by simp)
          have hc : (rd.id :: seen).contains rd.id = true := by
            simp [List.contains_cons]
          rw [hf, hc, if_pos rfl, hseen0]
          simp
        · have hne : (rd.id == id) = false := beq_eq_false_iff_ne.mpr hid
          have hne2 : (id == rd.id) = false :=
            beq_eq_false_iff_ne.mpr (fun h => hid h.symm)
          have hf : firstEventFor (⟨Action.create, rd⟩ :: rest) id =
              firstEventFor rest id := by
            unfold firstEventFor
            exact List.find?_cons_of_neg rest (by simp [hne])
          have hc : (rd.id :: seen).contains id = seen.contains id := by
            rw [List.contains_cons, hne2, Bool.false_or]
          have hfr : [rd].filter (fun r => r.id == id) = [] := by
            simp [hne]
          rw [hf, hc, hfr]
          simp
    | update =>
      have hstep : replayGo seen snap (⟨Action.update, rd⟩ :: rest) =
          if seen.contains rd.id then replayGo seen snap rest
          else replayGo (rd.id :: seen) (snap ++ [rd]) rest := rfl
      have hd : hasDeleteFor (⟨Action.update, rd⟩ :: rest) id =
          hasDeleteFor rest id := by
        simp [hasDeleteFor]
      by_cases hseen : seen.contains rd.id = true
      · rw [hstep, if_pos hseen, ih, hd]
        by_cases hid : rd.id = id
        · subst hid
          rw [hseen]
          simp
        · have hne : (rd.id == id) = false := beq_eq_false_iff_ne.mpr hid
          have hf : firstEventFor (⟨Action.update, rd⟩ :: rest) id =
              firstEventFor rest id := by
            unfold firstEventFor
            exact List.find?_cons_of_neg rest (by simp [hne])
          rw [hf]
      · have hseen0 : seen.contains rd.id = false :=
          Bool.not_eq_true _ ▸ Bool.of_not_eq_true hseen
        rw [hstep, if_neg hseen, ih, hd, List.filter_append]
        by_cases hid : rd.id = id
        · subst hid
          have hf : firstEventFor (⟨Action.update, rd⟩ :: rest) rd.id =
              some ⟨Action.update, rd⟩ := by
            unfold firstEventFor
            exact List.find?_cons_of_pos rest (by simp)
          have hc : (rd.id :: seen).contains rd.id = true := by
            simp [List.contains_cons]
          rw [hf, hc, if_pos rfl, hseen0]
          simp
        · have hne : (rd.id == id) = false := beq_eq_false_iff_ne.mpr hid
          have hne2 : (id == rd.id) = false :=
            beq_eq_false_iff_ne.mpr (fun h => hid h.symm)
          have hf : firstEventFor (⟨Action.update, rd⟩ :: rest) id =
              firstEventFor rest id := by
            unfold firstEventFor
            exact List.find?_cons_of_neg rest (by simp [hne])
          have hc : (rd.id :: seen).contains id = seen.contains id := by
            rw [List.contains_cons, hne2, Bool.false_or]
          have hfr : [rd].filter (fun r => r.id == id) = [] := by
            simp [hne]
          rw [hf, hc, hfr]
          simp

/-- Inversion of a successful `getSnapshot` run: the argument was an
integer, and the result is the assembled structure over the replayed
changes. -/
theorem getSnapshot_ok_inv (log : List HistoryEntry) (c : String)
    (a : AtArg) (res : SnapshotResult) (qs : List Query)
    (h : getSnapshot log c a = (Except.ok res, qs)) :
    ∃ n : Int, a = AtArg.intVal n ∧ ¬n ≤ 0 ∧
      res = { last_modified := toString n
              data := sortByLastModifiedDesc
                (replayGo [] [] (recordChangesQuery log c n))
              next := Except.error snapshotsPaginationMessage
              hasNextPage := false
              totalRecords :=
                (replayGo [] [] (recordChangesQuery log c n)).length } ∧
      qs = [Query.completeness c, Query.recordChanges c n] := by
  cases a with
  | nonIntNum => simp [getSnapshot] at h
  | undef => simp [getSnapshot] at h
  | intVal n =>
    refine ⟨n, rfl, ?_⟩
    by_cases hn : n ≤ 0
    · simp [getSnapshot, hn] at h
    · by_cases hc : isHistoryComplete log c
      · refine ⟨hn, ?_⟩
        simp only [getSnapshot, if_neg hn, hc, Bool.not_true,
          Bool.false_eq_true, if_false, Prod.mk.injEq, Except.ok.injEq] at h
        exact ⟨h.1.symm, h.2.symm⟩
      · have hcf : isHistoryComplete log c = false := by
          simpa using hc
        simp [getSnapshot, hn, hcf] at h

/-- Claim C1 counterexample: on the history `exampleLog` (record "A"
deleted at revision 5 and re-created at revision 8) with target revision
10, the event for "A" with the greatest revision at or below the target is
the create at revision 8, so the claim predicts "A" present with the data of that event; yet `getSnapshot` returns an empty record set, because the
old delete event is not a no-op for the already-resolved id: it removes
"A" from the accumulator. -/
theorem claim1_counterexample :
    specLatestEventFor (recordChangesQuery exampleLog "posts" 10) "A" =
        some { action := Action.create, record := recA8 } ∧
    (getSnapshot exampleLog "posts" (AtArg.intVal 10)).1 =
        Except.ok exampleSnapshotResult ∧
    exampleSnapshotResult.data = [] :=
  ⟨rfl, rfl, rfl⟩

/-- Claim C1 (amended): for every change-event sequence (replayed in the
given, newest-to-oldest order), an id is present in the reconstructed
record set if and only if the sequence contains an event for it and
contains no delete event for it, and when present its data is that of the first
(newest) event; in particular a delete event for an id already
resolved by a newer event is not a no-op — it removes the id from the
accumulator. -/
theorem claim1_replay_characterisation (changes : List ChangeEvent)
    (id : String) :
    (replay changes).filter (fun r => r.id == id) =
      (if hasDeleteFor changes id then []
       else
         match firstEventFor changes id with
         | some e => [e.record]
         | none => []) := by
  have h := replayGo_filter id changes [] []
  simpa [replay] using h

/-- Claim C6: for every argument that is not a positive integer (a
non-integer value, or an integer at most 0), `getSnapshot` fails
immediately with the argument error and issues no history query at all. -/
theorem claim6_invalid_argument_no_network (log : List HistoryEntry)
    (c : String) (a : AtArg) (h : invalidAt a = true) :
    getSnapshot log c a = (Except.error invalidSnapshotArgMessage, []) := by
  cases a with
  | intVal n =>
    have hn : n ≤ 0 := by simpa [invalidAt] using h
    simp [getSnapshot, hn]
  | nonIntNum => rfl
  | undef => rfl

/-- Witness for claim C6 at the concrete argument 0. -/
theorem claim6_witness :
    getSnapshot [] "posts" (AtArg.intVal 0) =
      (Except.error invalidSnapshotArgMessage, []) :=
  claim6_invalid_argument_no_network [] "posts" (AtArg.intVal 0) (by decide)

/-- Claim C7: with a valid target revision, when the history log lacks the
creation event of the collection itself `getSnapshot` fails with the
incomplete-history error after only the completeness query (no record
fetch, no replay); when the creation event is present, the check passes and
the call proceeds to fetch the record changes and reconstruct. -/
theorem claim7_completeness_check (log : List HistoryEntry) (c : String)
    (n : Int) (hn : 0 < n) :
    (isHistoryComplete log c = false →
      getSnapshot log c (AtArg.intVal n) =
        (Except.error incompleteHistoryMessage, [Query.completeness c])) ∧
    (isHistoryComplete log c = true →
      ∃ res, getSnapshot log c (AtArg.intVal n) =
        (Except.ok res, [Query.completeness c, Query.recordChanges c n])) := by
  have hn0 : ¬n ≤ 0 := not_le.mpr hn
  constructor
  · intro hmiss
    simp [getSnapshot, hn0, hmiss]
  · intro hcomp
    refine ⟨{ last_modified := toString n
              data := sortByLastModifiedDesc
                (replayGo [] [] (recordChangesQuery log c n))
              next := Except.error snapshotsPaginationMessage
              hasNextPage := false
              totalRecords :=
                (replayGo [] [] (recordChangesQuery log c n)).length }, ?_⟩
    simp [getSnapshot, hn0, hcomp]

/-- Witness for claim C7: an empty log is incomplete; `exampleLog` holds
the creation event and reconstruction proceeds. -/
theorem claim7_witness :
    getSnapshot [] "posts" (AtArg.intVal 3) =
        (Except.error incompleteHistoryMessage,
          [Query.completeness "posts"]) ∧
    ∃ res, getSnapshot exampleLog "posts" (AtArg.intVal 10) =
        (Except.ok res,
          [Query.completeness "posts", Query.recordChanges "posts" 10]) :=
  ⟨(claim7_completeness_check [] "posts" 3 (by decide)).1 (by decide),
   (claim7_completeness_check exampleLog "posts" 10 (by decide)).2
     (by decide)⟩

/-- Claim C8: every successful reconstruction carries the requested target
as its synthetic revision marker, data sorted descending by the records
own `last_modified`, `hasNextPage = false`, `totalRecords` equal to the
data length, and a `next` that fails with the pagination-unsupported
error. -/
theorem claim8_result_assembly (log : List HistoryEntry) (c : String)
    (a : AtArg) (res : SnapshotResult) (qs : List Query)
    (h : getSnapshot log c a = (Except.ok res, qs)) :
    (∃ n : Int, a = AtArg.intVal n ∧ res.last_modified = toString n) ∧
    res.hasNextPage = false ∧
    res.totalRecords = res.data.length ∧
    res.next = Except.error snapshotsPaginationMessage ∧
    List.Pairwise
      (fun r s : RecordData => s.last_modified ≤ r.last_modified)
      res.data := by
  obtain ⟨n, ha, -, hres, -⟩ := getSnapshot_ok_inv log c a res qs h
  subst ha
  subst hres
  refine ⟨⟨n, rfl, rfl⟩, rfl, ?_, rfl, ?_⟩
  · exact
      ((sortDescBy_perm (fun r : RecordData => r.last_modified)
        _).length_eq).symm
  · exact sortDescBy_pairwise (fun r : RecordData => r.last_modified) _

/-- Witness for claim C8 on the concrete `exampleLog` reconstruction. -/
theorem claim8_witness :
    (∃ n : Int, AtArg.intVal 10 = AtArg.intVal n ∧
      exampleSnapshotResult.last_modified = toString n) ∧
    exampleSnapshotResult.hasNextPage = false ∧
    exampleSnapshotResult.totalRecords =
      exampleSnapshotResult.data.length ∧
    exampleSnapshotResult.next =
      Except.error snapshotsPaginationMessage ∧
    List.Pairwise
      (fun r s : RecordData => s.last_modified ≤ r.last_modified)
      exampleSnapshotResult.data :=
  claim8_result_assembly exampleLog "posts" (AtArg.intVal 10)
    exampleSnapshotResult
    [Query.completeness "posts", Query.recordChanges "posts" 10] rfl

/-- Claim C9: `listRecords` selects the snapshot path exactly when the
options object owns an `at` property — even one whose value is
`undefined` — calling `getSnapshot` with that value and never
`paginatedList`; without the property it delegates to `paginatedList`. -/
theorem claim9_listRecords_dispatch (log : List HistoryEntry) (c : String)
    (opts : ListRecordsOptions) :
    (∀ v, opts.atProp = some v →
      listRecords log c opts =
        ListRecordsOutcome.snapshotOutcome (getSnapshot log c v)) ∧
    (opts.atProp = none →
      listRecords log c opts = ListRecordsOutcome.paginated) := by
  constructor
  · intro v hv
    simp [listRecords, hv]
  · intro hv
    simp [listRecords, hv]

/-- Witness for claim C9: an `at` key present with value `undefined`
dispatches to the snapshot path; an absent key paginates. -/
theorem claim9_witness :
    listRecords [] "posts" { atProp := some AtArg.undef } =
        ListRecordsOutcome.snapshotOutcome
          (getSnapshot [] "posts" AtArg.undef) ∧
    listRecords [] "posts" { atProp := none } =
        ListRecordsOutcome.paginated :=
  ⟨(claim9_listRecords_dispatch [] "posts"
      { atProp := some AtArg.undef }).1 AtArg.undef rfl,
   (claim9_listRecords_dispatch [] "posts" { atProp := none }).2 rfl⟩

/-- Claim C10: the data array of every successful reconstruction contains
at most one record per id. -/
theorem claim10_at_most_one_record_per_id (log : List HistoryEntry)
    (c : String) (a : AtArg) (res : SnapshotResult) (qs : List Query)
    (h : getSnapshot log c a = (Except.ok res, qs)) (id : String) :
    (res.data.filter (fun r => r.id == id)).length ≤ 1 := by
  obtain ⟨n, -, -, hres, -⟩ := getSnapshot_ok_inv log c a res qs h
  have hdata : res.data =
      sortByLastModifiedDesc
        (replayGo [] [] (recordChangesQuery log c n)) := by
    rw [hres]
  have hperm :=
    (sortDescBy_perm (fun r : RecordData => r.last_modified)
      (replayGo [] [] (recordChangesQuery log c n)))
  have hcount :
      ((sortByLastModifiedDesc
          (replayGo [] [] (recordChangesQuery log c n))).filter
        (fun r => r.id == id)).length =
      ((replayGo [] [] (recordChangesQuery log c n)).filter
        (fun r => r.id == id)).length := by
    rw [← List.countP_eq_length_filter, ← List.countP_eq_length_filter]
    exact hperm.countP_eq (fun r => r.id == id)
  have hchar := replayGo_filter id (recordChangesQuery log c n) [] []
  simp only [List.filter_nil, List.contains_nil, List.nil_append,
    Bool.false_eq_true, if_false] at hchar
  rw [hdata, hcount, hchar]
  by_cases hdel : hasDeleteFor (recordChangesQuery log c n) id = true
  · simp [hdel]
  · simp only [hdel, Bool.false_eq_true, if_false]
    cases firstEventFor (recordChangesQuery log c n) id <;> simp

/-- Witness for claim C10 on the concrete `exampleLog` reconstruction. -/
theorem claim10_witness :
    ((exampleSnapshotResult.data).filter
      (fun r => r.id == "A")).length ≤ 1 :=
  claim10_at_most_one_record_per_id exampleLog "posts" (AtArg.intVal 10)
    exampleSnapshotResult
    [Query.completeness "posts", Query.recordChanges "posts" 10] rfl "A"

theorem retryLoop_error_of_503 (transport : Nat → Response) :
    ∀ (b a : Nat), (∀ i : Nat, i ≤ b → (transport (a + i)).status = 503) →
      retryLoop transport a b =
        (Except.error (attemptError (transport (a + b))), a + b + 1)
  | 0, a, h => by
    have h0 : (transport a).status = 503 := by simpa using h 0 (le_refl 0)
    have hcl : classify (transport a) =
        Except.error (attemptError (transport a)) := by
      simp [classify, h0]
    rw [retryLoop, hcl]
    simp
  | b + 1, a, h => by
    have h0 : (transport a).status = 503 := by simpa using h 0 (by omega)
    have hcl : classify (transport a) =
        Except.error (attemptError (transport a)) := by
      simp [classify, h0]
    have hrec := retryLoop_error_of_503 transport b (a + 1) (fun i hi => by
      have hx := h (i + 1) (by omega)
      have harith : a + (i + 1) = a + 1 + i := by omega
      rwa [harith] at hx)
    have harith : a + 1 + b = a + (b + 1) := by omega
    rw [harith] at hrec
    rw [retryLoop, hcl]
    simp only [h0, beq_self_eq_true, if_true]
    rw [hrec]

theorem retryLoop_ok_after_503 (transport : Nat → Response) :
    ∀ (j b a : Nat), j ≤ b →
      (∀ i : Nat, i < j → (transport (a + i)).status = 503) →
      (transport (a + j)).status < 400 →
      retryLoop transport a b = (Except.ok (transport (a + j)), a + j + 1)
  | 0, b, a, _, _, hok => by
    have hok0 : (transport a).status < 400 := by simpa using hok
    have hcl : classify (transport a) = Except.ok (transport a) := by
      simp [classify]
      omega
    rw [retryLoop, hcl]
    simp
  | j + 1, 0, a, hjb, _, _ => absurd hjb (by omega)
  | j + 1, b + 1, a, hjb, h503, hok => by
    have h0 : (transport a).status = 503 := by
      simpa using h503 0 (by omega)
    have hcl : classify (transport a) =
        Except.error (attemptError (transport a)) := by
      simp [classify, h0]
    have hrec := retryLoop_ok_after_503 transport j b (a + 1) (by omega)
      (fun i hi => by
        have hx := h503 (i + 1) (by omega)
        have harith : a + (i + 1) = a + 1 + i := by omega
        rwa [harith] at hx)
      (by
        have harith : a + (j + 1) = a + 1 + j := by omega
        rwa [harith] at hok)
    have harith : a + 1 + j = a + (j + 1) := by omega
    rw [harith] at hrec
    rw [retryLoop, hcl]
    simp only [h0, beq_self_eq_true, if_true]
    rw [hrec]

/-- Claim C2: with budget n, (a) n+1 consecutive 503 responses give
exactly n+1 attempts and surface the last 503-derived error unchanged;
(b) a success on attempt k at most n+1, after 503s only, gives exactly k
attempts and returns the success; (c) a first-attempt failure whose status
is not 503 propagates immediately, after one attempt, for every budget. -/
theorem claim2_bounded_retry (transport : Nat → Response) (n : Nat) :
    ((∀ i : Nat, i ≤ n → (transport i).status = 503) →
      request transport n =
        (Except.error (attemptError (transport n)), n + 1)) ∧
    (∀ k : Nat, 1 ≤ k → k ≤ n + 1 →
      (∀ i : Nat, i < k - 1 → (transport i).status = 503) →
      (transport (k - 1)).status < 400 →
      request transport n = (Except.ok (transport (k - 1)), k)) ∧
    (400 ≤ (transport 0).status → (transport 0).status ≠ 503 →
      request transport n =
        (Except.error (attemptError (transport 0)), 1)) := by
  refine ⟨?_, ?_, ?_⟩
  · intro h
    have := retryLoop_error_of_503 transport n 0 (fun i hi => by
      simpa using h i hi)
    simpa [request] using this
  · intro k hk1 hkn h503 hok
    have := retryLoop_ok_after_503 transport (k - 1) n 0 (by omega)
      (fun i hi => by simpa using h503 i hi) (by simpa using hok)
    have harith : 0 + (k - 1) + 1 = k := by omega
    rw [harith] at this
    simpa [request] using this
  · intro h400 hne
    have hcl : classify (transport 0) =
        Except.error (attemptError (transport 0)) := by
      simp [classify, h400]
    unfold request
    rw [retryLoop, hcl]
    cases n with
    | zero => rfl
    | succ b =>
      have hb : ((transport 0).status == 503) = false := by
        simpa using hne
      rw [hb]
      simp

/-- Witness for claim C2 on the scenario of the spec: two 503s then a 200 with
budget 1 fails after two attempts, with budget 2 it succeeds on the third
attempt; a non-503 failure is never retried. -/
theorem claim2_witness :
    request exampleTransport 1 =
        (Except.error (attemptError (exampleTransport 1)), 2) ∧
    request exampleTransport 2 = (Except.ok (exampleTransport 2), 3) ∧
    request (fun _ => exampleResponse410) 4 =
        (Except.error (attemptError exampleResponse410), 1) :=
  ⟨(claim2_bounded_retry exampleTransport 1).1
      (by intro i hi; interval_cases i <;> rfl),
   (claim2_bounded_retry exampleTransport 2).2.1 3 (by omega) (by omega)
      (by intro i hi; interval_cases i <;> rfl) (by decide),
   (claim2_bounded_retry (fun _ => exampleResponse410) 4).2.2 (by decide)
      (by decide)⟩

/-- Claim C3: each processed attempt emits exactly one backoff signal,
regardless of the classification outcome: with a Backoff header of s
seconds the payload is the current time plus s times 1000, and with the
header absent the payload is 0. -/
theorem claim3_backoff_signal (now : Int) (r : Response) :
    (processAttempt now r).1.filter (fun s => s.name == "backoff") =
      [{ name := "backoff"
         payload :=
           match r.backoff with
           | some s => now + s * 1000
           | none => 0 }] := by
  cases hb : r.backoff <;> cases hr : r.retryAfter <;>
    simp [processAttempt, headerSignals, hb, hr]

/-- Claim C5: every response with status at least 400 is classified as a
ServerResponse failure carrying the parsed body; its message starts with
the numeric status; with a parsed body holding `error` and a first detail
the message uses that first detail, and with no (parseable) body it falls
back to the status text. -/
theorem claim5_server_response (r : Response) (h : 400 ≤ r.status) :
    classify r =
      Except.error (ReqError.serverResponse r.status
        (serverResponseMessage r.status r.statusText r.body) r.body) ∧
    (∃ rest : String, serverResponseMessage r.status r.statusText r.body =
        "HTTP " ++ toString r.status ++ " " ++ rest) ∧
    (∀ j e d tl, r.body = some j → j.error = some e → j.details = d :: tl →
      serverResponseMessage r.status r.statusText r.body =
        "HTTP " ++ toString r.status ++ " " ++ e ++
          ": Invalid request parameter (" ++ d.description ++ ")") ∧
    (r.body = none →
      serverResponseMessage r.status r.statusText r.body =
        "HTTP " ++ toString r.status ++ " " ++ r.statusText) := by
  refine ⟨by simp [classify, h, attemptError], ?_, ?_, ?_⟩
  · cases hb : r.body with
    | none => exact ⟨r.statusText, by simp [serverResponseMessage]⟩
    | some j =>
      cases he : j.error with
      | none =>
        exact ⟨r.statusText, by simp [serverResponseMessage, he]⟩
      | some e =>
        cases hd : j.details with
        | nil => exact ⟨r.statusText, by simp [serverResponseMessage, he, hd]⟩
        | cons d tl =>
          refine ⟨e ++ ": Invalid request parameter (" ++
            d.description ++ ")", ?_⟩
          simp [serverResponseMessage, he, hd, String.append_assoc]
  · intro j e d tl hj he hd
    simp [serverResponseMessage, hj, he, hd]
  · intro hb
    simp [serverResponseMessage, hb]

theorem headerLookup_append (l1 l2 : List (String × String)) (k : String) :
    headerLookup (l1 ++ l2) k =
      match headerLookup l1 k with
      | some v => some v
      | none => headerLookup l2 k := by
  unfold headerLookup
  rw [List.find?_append]
  cases h : l1.find? (fun h => h.1.toLower == k.toLower) <;>
    simp [h, Option.none_or]

theorem find?_filter_superset {α : Type} (p q : α → Bool) :
    ∀ l : List α, (∀ a ∈ l, p a = true → q a = true) →
      (l.filter q).find? p = l.find? p
  | [], _ => rfl
  | x :: xs, h => by
    by_cases hq : q x = true
    · rw [List.filter_cons_of_pos hq]
      by_cases hp : p x = true
      · rw [List.find?_cons_of_pos _ hp, List.find?_cons_of_pos _ hp]
      · rw [List.find?_cons_of_neg _ hp, List.find?_cons_of_neg _ hp]
        exact find?_filter_superset p q xs
          (fun a ha => h a (List.mem_cons_of_mem x ha))
    · have hp : ¬p x = true := fun hpx => hq (h x (List.mem_cons_self x xs) hpx)
      rw [List.filter_cons_of_neg hq, List.find?_cons_of_neg _ hp]
      exact find?_filter_superset p q xs
        (fun a ha => h a (List.mem_cons_of_mem x ha))

/-- The default-overlay merge before the multipart adjustment: the caller
entry wins when present (case-insensitively), else the default entry
applies. -/
theorem headerLookup_merged (caller : List (String × String)) (k : String) :
    headerLookup
      (defaultRequestHeaders.filter (fun d =>
        !(caller.any (fun h => h.1.toLower == d.1.toLower))) ++ caller) k =
      (match headerLookup caller k with
       | some v => some v
       | none => headerLookup defaultRequestHeaders k) := by
  rw [headerLookup_append]
  cases hfind : caller.find? (fun h => h.1.toLower == k.toLower) with
  | some e =>
    have hPe := List.find?_some hfind
    have hmem : e ∈ caller := List.mem_of_find?_eq_some hfind
    have hfd : (defaultRequestHeaders.filter (fun d =>
        !(caller.any (fun h => h.1.toLower == d.1.toLower)))).find?
        (fun h => h.1.toLower == k.toLower) = none := by
      refine List.find?_eq_none.mpr ?_
      intro d hd hPd
      obtain ⟨-, hphi⟩ := List.mem_filter.mp hd
      have h1 : e.1.toLower = k.toLower := by simpa using hPe
      have h2 : d.1.toLower = k.toLower := by simpa using hPd
      have hany : caller.any (fun h => h.1.toLower == d.1.toLower) = true :=
        List.any_eq_true.mpr ⟨e, hmem, by simp [h1, h2]⟩
      simp [hany] at hphi
    have hl1 : headerLookup (defaultRequestHeaders.filter (fun d =>
        !(caller.any (fun h => h.1.toLower == d.1.toLower)))) k = none := by
      unfold headerLookup
      rw [hfd]
      rfl
    have hl2 : headerLookup caller k = some e.2 := by
      unfold headerLookup
      rw [hfind]
      rfl
    rw [hl1, hl2]
  | none =>
    have hnc : ∀ h ∈ caller, ¬((h.1.toLower == k.toLower) = true) :=
      List.find?_eq_none.mp hfind
    have hfd : (defaultRequestHeaders.filter (fun d =>
        !(caller.any (fun h => h.1.toLower == d.1.toLower)))).find?
        (fun h => h.1.toLower == k.toLower) =
        defaultRequestHeaders.find? (fun h => h.1.toLower == k.toLower) := by
      refine find?_filter_superset _ _ defaultRequestHeaders ?_
      intro d _ hPd
      have h2 : d.1.toLower = k.toLower := by simpa using hPd
      have hany : caller.any (fun h => h.1.toLower == d.1.toLower) = false := by
        refine Bool.eq_false_iff.mpr ?_
        intro hx
        obtain ⟨hh, hm, hb⟩ := List.any_eq_true.mp hx
        have hh1 : hh.1.toLower = d.1.toLower := by simpa using hb
        exact hnc hh hm (by simp [hh1, h2])
      simp [hany]
    have hcnone : headerLookup caller k = none := by
      unfold headerLookup
      rw [hfind]
      rfl
    have hl1 : headerLookup (defaultRequestHeaders.filter (fun d =>
        !(caller.any (fun h => h.1.toLower == d.1.toLower)))) k =
        headerLookup defaultRequestHeaders k := by
      unfold headerLookup
      rw [hfd]
    rw [hcnone, hl1]
    cases hdf : headerLookup defaultRequestHeaders k <;> rfl

/-- Claim C4: the headers sent on the wire are the fixed defaults overlaid
by the caller headers, caller winning on case-insensitive collision; with
a multipart body the Content-Type entry is removed entirely (including
the one the caller supplied), and no entry with that key remains. -/
theorem claim4_header_construction (caller : List (String × String))
    (body : RequestBody) (k : String) :
    (headerLookup (buildRequestHeaders caller body) k =
      (if isMultipart body && (k.toLower == "content-type") then none
       else
         match headerLookup caller k with
         | some v => some v
         | none => headerLookup defaultRequestHeaders k)) ∧
    ((buildRequestHeaders caller RequestBody.multipart).all
      (fun h => h.1.toLower != "content-type") = true) := by
  constructor
  · by_cases hmul : isMultipart body = true
    · have hbuild : buildRequestHeaders caller body =
          (defaultRequestHeaders.filter (fun d =>
            !(caller.any (fun h => h.1.toLower == d.1.toLower))) ++
              caller).filter (fun h => h.1.toLower != "content-type") := by
        simp [buildRequestHeaders, hmul]
      by_cases hk : k.toLower = "content-type"
      · have hnone : headerLookup (buildRequestHeaders caller body) k =
            none := by
          rw [hbuild]
          have : ((defaultRequestHeaders.filter (fun d =>
              !(caller.any (fun h => h.1.toLower == d.1.toLower))) ++
                caller).filter
              (fun h => h.1.toLower != "content-type")).find?
              (fun h => h.1.toLower == k.toLower) = none := by
            refine List.find?_eq_none.mpr ?_
            intro hdr hmem hP
            obtain ⟨-, hq⟩ := List.mem_filter.mp hmem
            have h1 : hdr.1.toLower = k.toLower := by simpa using hP
            rw [hk] at h1
            simp [bne, h1] at hq
          unfold headerLookup
          rw [this]
          rfl
        rw [hnone, hmul, hk]
        simp
      · have hkeep : headerLookup (buildRequestHeaders caller body) k =
            headerLookup
              (defaultRequestHeaders.filter (fun d =>
                !(caller.any (fun h => h.1.toLower == d.1.toLower))) ++
                  caller) k := by
          rw [hbuild]
          unfold headerLookup
          rw [find?_filter_superset]
          intro hdr _ hP
          have h1 : hdr.1.toLower = k.toLower := by simpa using hP
          simp [bne, h1]
          exact fun hx => hk hx
        rw [hkeep, headerLookup_merged]
        have hcond : (isMultipart body && (k.toLower == "content-type")) =
            false := by
          simp [beq_eq_false_iff_ne.mpr hk]
        rw [hcond]
        simp
    · have hmul0 : isMultipart body = false := by
        simpa using hmul
      have hbuild : buildRequestHeaders caller body =
          defaultRequestHeaders.filter (fun d =>
            !(caller.any (fun h => h.1.toLower == d.1.toLower))) ++
              caller := by
        simp [buildRequestHeaders, hmul0]
      rw [hbuild, headerLookup_merged, hmul0]
      simp
  · refine List.all_eq_true.mpr ?_
    intro hdr hmem
    have hbuild : buildRequestHeaders caller RequestBody.multipart =
        (defaultRequestHeaders.filter (fun d =>
          !(caller.any (fun h => h.1.toLower == d.1.toLower))) ++
            caller).filter (fun h => h.1.toLower != "content-type") := by
      simp [buildRequestHeaders, isMultipart]
    rw [hbuild] at hmem
    exact (List.mem_filter.mp hmem).2

/-- Witness for claim C5 on the 400 scenario of the test suite. -/
theorem claim5_witness :
    classify exampleResponse400 =
      Except.error (ReqError.serverResponse 400
        (serverResponseMessage 400 "Bad Request" (some exampleErrorBody))
        (some exampleErrorBody)) ∧
    serverResponseMessage 400 "Bad Request" (some exampleErrorBody) =
      "HTTP " ++ toString 400 ++ " " ++ "Invalid parameters" ++
        ": Invalid request parameter (" ++ "data is missing" ++ ")" :=
  ⟨(claim5_server_response exampleResponse400 (by decide)).1,
   (claim5_server_response exampleResponse400 (by decide)).2.2.1
     exampleErrorBody "Invalid parameters"
     { description := "data is missing" } [] rfl rfl rfl⟩

end KintoHttp
